import Mathlib

/-!
Shallow embedding of the type-registry core of the qfusion-angelscript
language server (`src/language-server/src/database.ts`).

Modelling conventions, used throughout:
* TypeScript fields that may be `undefined`/`null` are modelled as `Option`;
  class fields with a `= false` initializer are plain `Bool` (they are never
  `undefined`), fields without an initializer that the code only ever reads
  in boolean positions are `Bool` with `undefined ↦ false` (the two are
  indistinguishable under JS truthiness, which is the only way they are read).
* String truthiness (`if (this.supertype)`) is modelled explicitly: `none`
  and the empty string are falsy.
* The global `database` Map is threaded explicitly as a `Registry` value;
  `Map.get/set/delete` become `dbGet/dbSet/dbDelete` on an association list
  with Map semantics (at most one binding per key is ever created by the
  API; `dbSet` overwrites in place, preserving insertion order).
* A JavaScript `TypeError` (null/undefined dereference) is modelled as
  `Except.error ()`; loops whose termination is under study take explicit
  fuel, with fuel exhaustion a separate `Option.none` result so that
  divergence is never conflated with a thrown error.
* `Array.prototype.includes` compares objects by identity.  In this
  embedding registry-resident objects are compared structurally; the two
  agree whenever structurally distinct objects are involved (every scenario
  below), and the structural check deduplicates at least as much as the
  identity check, so it can only make the walk stop earlier, never later.
-/

set_option maxHeartbeats 1600000

/-- `DBProperty` from database.ts: a declared property of a type. -/
structure DBProperty where
  name : String
  typename : String
  documentation : Option String
  isProtected : Bool
  isPrivate : Bool
  deriving DecidableEq, Repr

/-- `DBArg` from database.ts: one method argument. -/
structure DBArg where
  name : Option String
  typename : String
  defaultvalue : Option String
  deriving DecidableEq, Repr

/-- `DBMethod` from database.ts: a declared method. -/
structure DBMethod where
  name : String
  returnType : String
  args : List DBArg
  argumentStr : Option String
  documentation : Option String
  declaredModule : Option String
  isProtected : Bool
  isPrivate : Bool
  isConstructor : Bool
  isEvent : Bool
  isConst : Bool
  deriving DecidableEq, Repr

/-- `DBType` from database.ts: one registered type. -/
structure DBType where
  typename : String
  supertype : Option String
  properties : List DBProperty
  methods : List DBMethod
  unrealsuper : Option String
  documentation : Option String
  isStruct : Bool
  isNS : Bool
  isEnum : Bool
  rawName : Option String
  namespaceResolved : Bool
  shadowedNamespace : Bool
  isDelegate : Bool
  isEvent : Bool
  isPrimitive : Bool
  declaredModule : Option String
  siblingTypes : Option (List String)
  subTypes : Option (List String)
  deriving DecidableEq, Repr

deriving instance DecidableEq for Except

/-- The global `database : Map<string, DBType>`, threaded explicitly. -/
abbrev Registry := List (String × DBType)

/-- `database.get(k)`: first (unique) binding of `k`, if any. -/
def dbGet (r : Registry) (k : String) : Option DBType :=
  (r.find? (fun e => e.1 == k)).map (fun e => e.2)

/-- `database.set(k, v)`: overwrite the existing binding in place, else append
(JS `Map.set` keeps the original insertion position of an existing key). -/
def dbSet (r : Registry) (k : String) (v : DBType) : Registry :=
  if r.any (fun e => e.1 == k) then
    r.map (fun e => if e.1 == k then (k, v) else e)
  else
    r ++ [(k, v)]

/-!
String primitives.  JS string operations are modelled on the character list
(`String.data`) with executable implementations, so that every definition
evaluates by kernel reduction on concrete inputs.  `jsSpace` covers the JS
`\s` / `trim` whitespace characters that fit in ASCII type names (JS also
trims some Unicode space characters, which cannot occur here).
-/

def jsSpace (c : Char) : Bool :=
  c = ' ' || c = '\t' || c = '\n' || c = '\r' || c = '\x0b' || c = '\x0c'

/-- `String.prototype.trim`: strip `jsSpace` from both ends. -/
def listTrim (l : List Char) : List Char :=
  ((l.dropWhile jsSpace).reverse.dropWhile jsSpace).reverse

def jsTrim (s : String) : String := String.mk (listTrim s.data)

def jsStartsWith (s pre : String) : Bool := pre.data.isPrefixOf s.data

def jsEndsWith (s suf : String) : Bool := suf.data.isSuffixOf s.data

/-- `substring(n)`: drop the first `n` characters. -/
def jsDrop (s : String) (n : Nat) : String := String.mk (s.data.drop n)

/-- `substring(0, length - n)`: drop the last `n` characters. -/
def jsDropRight (s : String) (n : Nat) : String :=
  String.mk (s.data.take (s.data.length - n))

def jsIsEmpty (s : String) : Bool := s.data.isEmpty

/-- `split(",")` on the character list: JS keeps empty segments. -/
def splitComma : List Char → List (List Char)
  | [] => [[]]
  | c :: rest =>
    match splitComma rest with
    | [] => [[]]
    | g :: gs => if c = ',' then [] :: g :: gs else (c :: g) :: gs

def jsSplitComma (s : String) : List String := (splitComma s.data).map String.mk

/-- JS truthiness of a `string | undefined` field: `undefined` and `""` are falsy. -/
def strTruthy : Option String → Bool
  | none => false
  | some s => !(jsIsEmpty s)

/-- `CleanTypeName` from database.ts: trim, strip a leading `"const "`, then one
trailing `&` (re-trimming), then one trailing `@` (re-trimming). -/
def CleanTypeName (typename : String) : String :=
  let t1 := jsTrim typename
  let t2 := if jsStartsWith t1 "const " then jsDrop t1 6 else t1
  let t3 := if jsEndsWith t2 "&" then jsTrim (jsDropRight t2 1) else t2
  let t4 := if jsEndsWith t3 "@" then jsTrim (jsDropRight t3 1) else t3
  t4

/-- `[A-Za-z_0-9]` of `re_template`. -/
def isWordChar (c : Char) : Bool :=
  (('A' ≤ c && c ≤ 'Z') || ('a' ≤ c && c ≤ 'z') || ('0' ≤ c && c ≤ '9') || c = '_')

/-- `[A-Za-z_0-9,\s]` of `re_template` (the `\s` cases that can occur in an
ASCII type name). -/
def isTemplArgChar (c : Char) : Bool :=
  isWordChar c || c = ',' || c = ' ' || c = '\t' || c = '\n' || c = '\r'

/-- One attempted match of `([A-Za-z_0-9]+)\<([A-Za-z_0-9,\s]+)\>` anchored at
the head of `l`.  Both character classes are disjoint from the literal that
follows them, so the greedy maximal munch is exactly the backtracking regex
semantics. -/
def tryMatchAt (l : List Char) : Option (List Char × List Char) :=
  let g1 := l.takeWhile isWordChar
  let l1 := l.dropWhile isWordChar
  if g1.isEmpty then none
  else
    match l1 with
    | '<' :: l2 =>
      let g2 := l2.takeWhile isTemplArgChar
      let l3 := l2.dropWhile isTemplArgChar
      if g2.isEmpty then none
      else
        match l3 with
        | '>' :: _ => some (g1, g2)
        | _ => none
    | _ => none

/-- Leftmost match of `re_template`, as `String.prototype.match` finds it:
try every start position from the left. -/
def findTemplate : List Char → Option (List Char × List Char)
  | [] => none
  | c :: rest =>
    match tryMatchAt (c :: rest) with
    | some res => some res
    | none => findTemplate rest

/-- `typename.match(re_template)`, returning the two capture groups. -/
def matchTemplate (s : String) : Option (String × String) :=
  (findTemplate s.data).map (fun p => (String.mk p.1, String.mk p.2))

/-- The index-parallel scan of `ReplaceTemplateType`'s `for` loop.  The source
indexes `actualTypes[i]` in lockstep with `templateTypes[i]`; every call site
(template instantiation) runs behind the placeholder-count guard, so the two
lists have equal length there and the `zip` loses nothing. -/
def replaceScan (tn : String) : List (String × String) → String
  | [] => tn
  | (t, a) :: rest => if tn = t then a else replaceScan tn rest

/-- `ReplaceTemplateType` from database.ts: clean the name, then return the
actual type of the first placeholder it equals, else the cleaned name. -/
def ReplaceTemplateType (typename : String) (templateTypes actualTypes : List String) : String :=
  replaceScan (CleanTypeName typename) (templateTypes.zip actualTypes)

/-- `DBProperty.createTemplateInstance`: only `name` and the substituted
`typename` are assigned; `documentation` and the protection flags are left at
the fresh object's defaults (`undefined` ↦ `none`/`false`). -/
def DBProperty.createTemplateInstance (p : DBProperty)
    (templateTypes actualTypes : List String) : DBProperty :=
  { name := p.name
    typename := ReplaceTemplateType p.typename templateTypes actualTypes
    documentation := none
    isProtected := false
    isPrivate := false }

/-- `DBArg.createTemplateInstance`. -/
def DBArg.createTemplateInstance (a : DBArg)
    (templateTypes actualTypes : List String) : DBArg :=
  { name := a.name
    defaultvalue := a.defaultvalue
    typename := ReplaceTemplateType a.typename templateTypes actualTypes }

/-- `DBMethod.createTemplateInstance`: assigns `name`, substituted
`returnType`, `argumentStr`, `documentation` and the substituted `args`; the
boolean flags keep their `= false` initializers and `declaredModule` stays
`undefined`. -/
def DBMethod.createTemplateInstance (m : DBMethod)
    (templateTypes actualTypes : List String) : DBMethod :=
  { name := m.name
    returnType := ReplaceTemplateType m.returnType templateTypes actualTypes
    argumentStr := m.argumentStr
    documentation := m.documentation
    args := m.args.map (fun a => a.createTemplateInstance templateTypes actualTypes)
    declaredModule := none
    isProtected := false
    isPrivate := false
    isConstructor := false
    isEvent := false
    isConst := false }

/-- `DBType.createTemplateInstance`.  The source first reads
`this.subTypes.length`: when `subTypes` is `undefined` that is a thrown
`TypeError`, modelled as `Except.error ()`.  On a placeholder-count mismatch
it returns `null` (`Except.ok none`).  Otherwise it assigns exactly the
fields listed in the source; everything it does not assign keeps the fresh
object's defaults (`undefined` ↦ `none`/`false`), in particular `isStruct`,
`documentation` and `unrealsuper` are not copied and `subTypes` is set to
`null`. -/
def DBType.createTemplateInstance (t : DBType) (actualTypes : List String) :
    Except Unit (Option DBType) :=
  match t.subTypes with
  | none => Except.error ()
  | some sub =>
    if actualTypes.length ≠ sub.length then Except.ok none
    else
      Except.ok (some
        { typename := t.typename
          supertype := t.supertype
          isNS := t.isNS
          isEnum := t.isEnum
          rawName := t.rawName
          namespaceResolved := t.namespaceResolved
          shadowedNamespace := t.shadowedNamespace
          declaredModule := t.declaredModule
          siblingTypes := t.siblingTypes
          subTypes := none
          properties := t.properties.map (fun p => p.createTemplateInstance sub actualTypes)
          methods := t.methods.map (fun m => m.createTemplateInstance sub actualTypes)
          unrealsuper := none
          documentation := none
          isStruct := false
          isDelegate := false
          isEvent := false
          isPrimitive := false })

/-- `GetType` from database.ts, with explicit recursion depth counter.  The
one recursive call is `GetType(basetype)` where `basetype` is the first
capture group of `re_template` and hence consists of word characters only:
it is unchanged by `CleanTypeName` and contains no `<`, so that inner call
returns from its direct-lookup branch without recursing again.  The source
recursion therefore never goes deeper than two frames and `GetType` below is
the depth-2 instance.  `getTypeStep` is the function body, with the recursive
call abstracted; `getTypeAux` ties the knot with the depth counter.

Source order preserved faithfully: the queried name is cleaned and the clean
name is used both as the cache key and as the `typename` stamped on a new
instance.  Note the source assigns `inst.typename = typename` BEFORE its
`if (!inst) return null` guard, so when `createTemplateInstance` returns
`null` (placeholder-count mismatch) the assignment throws a `TypeError`
(`Except.error ()`) instead of reaching the guard. -/
def getTypeStep (recurse : Registry → String → Except Unit (Option DBType × Registry))
    (r : Registry) (tn0 : String) : Except Unit (Option DBType × Registry) :=
  match dbGet r (CleanTypeName tn0) with
  | some foundType => Except.ok (some foundType, r)
  | none =>
    if (CleanTypeName tn0).data.contains '<' then
      match matchTemplate (CleanTypeName tn0) with
      | some (basetype, argstr) =>
        match recurse r basetype with
        | Except.error e => Except.error e
        | Except.ok (none, r1) => Except.ok (none, r1)
        | Except.ok (some dbbasetype, r1) =>
          match dbbasetype.createTemplateInstance ((jsSplitComma argstr).map jsTrim) with
          | Except.error e => Except.error e
          | Except.ok none => Except.error ()
          | Except.ok (some inst0) =>
            Except.ok (some { inst0 with typename := CleanTypeName tn0 },
              dbSet r1 (CleanTypeName tn0) { inst0 with typename := CleanTypeName tn0 })
      | none => Except.ok (none, r)
    else Except.ok (none, r)

def getTypeAux : Nat → Registry → String → Except Unit (Option DBType × Registry)
  | 0, _, _ => Except.error ()
  | fuel + 1, r, tn0 => getTypeStep (getTypeAux fuel) r tn0

/-- `GetType`: the fuel-2 instance of `getTypeAux` (exact, see
`getTypeAux_fuel_ge_two`). -/
def GetType (r : Registry) (typename : String) : Except Unit (Option DBType × Registry) :=
  getTypeAux 2 r typename

/-- `RemoveTypesInModule` from database.ts: delete every entry whose
`declaredModule` `==` the given module id (for `undefined`/`null` the JS
loose comparison with a string is false).  Deleting the entry currently under
the iterator is safe in a JS `Map`, so the loop is exactly a filter. -/
def RemoveTypesInModule (module : String) (r : Registry) : Registry :=
  r.filter (fun e => !(e.2.declaredModule == some module))

/-- `DBType.hasExtendTypes`: `if (this.supertype) ... if (this.siblingTypes)`;
a string is truthy when present and nonempty, an array whenever present. -/
def DBType.hasExtendTypes (t : DBType) : Bool :=
  strTruthy t.supertype || t.siblingTypes.isSome

/-- `DBType.resolveNamespace`, which mutates `this`: returns the updated
type.  `isNS` is `typename.startsWith("__")`, `namespaceResolved` is set, and
for a namespace the shadow flag records whether `database.get` of the name
with the two-character sigil stripped currently hits, and `rawName` records
that stripped name. -/
def DBType.resolveNamespace (t : DBType) (r : Registry) : DBType :=
  if jsStartsWith t.typename "__" then
    { t with
      isNS := true
      namespaceResolved := true
      shadowedNamespace := (dbGet r (jsDrop t.typename 2)).isSome
      rawName := some (jsDrop t.typename 2) }
  else { t with isNS := false, namespaceResolved := true }

/-- `DBType.isNamespace`: lazily resolve, cache, and report; the updated
object is returned alongside the answer. -/
def DBType.isNamespace (t : DBType) (r : Registry) : Bool × DBType :=
  if t.namespaceResolved then (t.isNS, t)
  else ((t.resolveNamespace r).isNS, t.resolveNamespace r)

/-- `DBType.isShadowedNamespace`: lazily resolve, then `isNS && shadowed`. -/
def DBType.isShadowedNamespace (t : DBType) (r : Registry) : Bool × DBType :=
  if t.namespaceResolved then (t.isNS && t.shadowedNamespace, t)
  else ((t.resolveNamespace r).isNS && (t.resolveNamespace r).shadowedNamespace,
    t.resolveNamespace r)

/-- Result of a stateful JS computation whose loop termination is under
study: `none` is fuel exhaustion (the divergence proxy), `some (error ())` a
thrown `TypeError`, `some (ok v)` normal completion. -/
abbrev JSResult (α : Type) := Option (Except Unit α)

/-- One resolve-and-append step of `getCombineTypesList`:
`GetType(name)`, and if it resolves and is not already in `extend`
(`extend.includes`, see the identity note at the top), push it. -/
def resolveExtend (r : Registry) (extend : List DBType) (name : String) :
    Except Unit (List DBType × Registry) :=
  match GetType r name with
  | Except.error e => Except.error e
  | Except.ok (none, r1) => Except.ok (extend, r1)
  | Except.ok (some d, r1) =>
    Except.ok (if d ∈ extend then extend else extend ++ [d], r1)

/-- The inner `for (let sibling of checkType.siblingTypes)` loop of
`getCombineTypesList`, threading the live `extend` array and the registry. -/
def resolveSiblings (r : Registry) (extend : List DBType) :
    List String → Except Unit (List DBType × Registry)
  | [] => Except.ok (extend, r)
  | s :: rest =>
    match resolveExtend r extend s with
    | Except.error e => Except.error e
    | Except.ok (extend1, r1) => resolveSiblings r1 extend1 rest

/-- The body of one `while` iteration of `getCombineTypesList`, processing
`checkType`: resolve its `supertype` (when truthy), then each of its
`siblingTypes` (when the array is present), threading the live `extend`
array and the registry. -/
def combineBody (r : Registry) (extend : List DBType) (checkType : DBType) :
    Except Unit (List DBType × Registry) :=
  match (match checkType.supertype with
         | some sup => if jsIsEmpty sup then Except.ok (extend, r) else resolveExtend r extend sup
         | none => Except.ok (extend, r)) with
  | Except.error e => Except.error e
  | Except.ok (extend1, r1) =>
    match checkType.siblingTypes with
    | some sibs => resolveSiblings r1 extend1 sibs
    | none => Except.ok (extend1, r1)

/-- The `while (checkIndex < extend.length)` loop of
`DBType.getCombineTypesList`: run `combineBody` on `extend[checkIndex]`,
then advance.  One unit of fuel per iteration. -/
def combineLoop : Nat → Registry → List DBType → Nat → JSResult (List DBType × Registry)
  | 0, _, _, _ => none
  | fuel + 1, r, extend, checkIndex =>
    if h : checkIndex < extend.length then
      match combineBody r extend (extend[checkIndex]) with
      | Except.error e => some (Except.error e)
      | Except.ok (extend2, r2) => combineLoop fuel r2 extend2 (checkIndex + 1)
    else some (Except.ok (extend, r))

/-- `DBType.getCombineTypesList`: the breadth-first flattening walk starting
from `[ this ]` at index 0. -/
def DBType.getCombineTypesList (t : DBType) (r : Registry) (fuel : Nat) :
    JSResult (List DBType × Registry) :=
  combineLoop fuel r [t] 0

/-- The `for (let extend of ...) { let mth = extend.getMethod(name, false); }`
loop of `getMethod`: a call with `recurse = false` scans its own `methods`
and then returns immediately, so each step is the own-methods scan. -/
def findMethodIn : List DBType → String → Option DBMethod
  | [], _ => none
  | ty :: rest, name =>
    match ty.methods.find? (fun f => f.name == name) with
    | some m => some m
    | none => findMethodIn rest name

/-- `DBType.getMethod` with the default `recurse = true`: own methods first,
then (when the type has extend types) every type of the combination list in
order, each scanned non-recursively. -/
def DBType.getMethod (t : DBType) (name : String) (r : Registry) (fuel : Nat) :
    JSResult (Option DBMethod × Registry) :=
  match t.methods.find? (fun f => f.name == name) with
  | some m => some (Except.ok (some m, r))
  | none =>
    if !t.hasExtendTypes then some (Except.ok (none, r))
    else
      match t.getCombineTypesList r fuel with
      | none => none
      | some (Except.error e) => some (Except.error e)
      | some (Except.ok (lst, r1)) =>
        match findMethodIn lst name with
        | some m => some (Except.ok (some m, r1))
        | none => some (Except.ok (none, r1))

/-- `DBType.getPropertyAccessorType`: `get_<name>`'s return type when that
method is found; else `set_<name>`'s first argument type when that method is
found with at least one argument; else `null`. -/
def DBType.getPropertyAccessorType (t : DBType) (name : String) (r : Registry) (fuel : Nat) :
    JSResult (Option String × Registry) :=
  match t.getMethod ("get_" ++ name) r fuel with
  | none => none
  | some (Except.error e) => some (Except.error e)
  | some (Except.ok (some getter, r1)) => some (Except.ok (some getter.returnType, r1))
  | some (Except.ok (none, r1)) =>
    match t.getMethod ("set_" ++ name) r1 fuel with
    | none => none
    | some (Except.error e) => some (Except.error e)
    | some (Except.ok (some setter, r2)) =>
      match setter.args.head? with
      | some arg0 => some (Except.ok (some arg0.typename, r2))
      | none => some (Except.ok (none, r2))
    | some (Except.ok (none, r2)) => some (Except.ok (none, r2))

/-- Head of the match of `/^[ \t]*\*+[ \t]*[\r\n]+/` at the start of `l`:
the remainder after the matched prefix. -/
def tryStarStart (l : List Char) : Option (List Char) :=
  let l1 := l.dropWhile (fun c => c = ' ' || c = '\t')
  let stars := l1.takeWhile (fun c => c = '*')
  let l2 := l1.dropWhile (fun c => c = '*')
  if stars.isEmpty then none
  else
    let l3 := l2.dropWhile (fun c => c = ' ' || c = '\t')
    let nls := l3.takeWhile (fun c => c = '\r' || c = '\n')
    if nls.isEmpty then none
    else some (l3.dropWhile (fun c => c = '\r' || c = '\n'))

/-- Match of `/[\r\n]+[ \t]*\*+[ \t]*/` anchored at the head of `l`: the
remainder after the matched span.  Each character class is disjoint from its
successor, so maximal munch equals the regex semantics. -/
def tryStarEnd (l : List Char) : Option (List Char) :=
  let nls := l.takeWhile (fun c => c = '\r' || c = '\n')
  let l1 := l.dropWhile (fun c => c = '\r' || c = '\n')
  if nls.isEmpty then none
  else
    let l2 := l1.dropWhile (fun c => c = ' ' || c = '\t')
    let stars := l2.takeWhile (fun c => c = '*')
    if stars.isEmpty then none
    else some ((l2.dropWhile (fun c => c = '*')).dropWhile (fun c => c = ' ' || c = '\t'))

theorem length_dropWhile_le (p : Char → Bool) (l : List Char) :
    (l.dropWhile p).length ≤ l.length :=
  (List.dropWhile_suffix p).sublist.length_le

theorem tryStarEnd_length {l rest : List Char} (h : tryStarEnd l = some rest) :
    rest.length < l.length := by
  unfold tryStarEnd at h
  by_cases h1 : (l.takeWhile (fun c => c = '\r' || c = '\n')).isEmpty
  · simp [h1] at h
  · simp only [h1, if_false, Bool.false_eq_true] at h
    by_cases h2 : ((l.dropWhile (fun c => c = '\r' || c = '\n')).dropWhile
        (fun c => c = ' ' || c = '\t')).takeWhile (fun c => c = '*') |>.isEmpty
    · simp [h2] at h
    · simp only [h2, if_false, Bool.false_eq_true, Option.some.injEq] at h
      subst h
      calc ((((l.dropWhile _).dropWhile _).dropWhile (fun c => c = '*')).dropWhile
              (fun c => c = ' ' || c = '\t')).length
          ≤ (((l.dropWhile (fun c => c = '\r' || c = '\n')).dropWhile
              (fun c => c = ' ' || c = '\t')).dropWhile (fun c => c = '*')).length :=
            length_dropWhile_le _ _
        _ ≤ ((l.dropWhile (fun c => c = '\r' || c = '\n')).dropWhile
              (fun c => c = ' ' || c = '\t')).length := length_dropWhile_le _ _
        _ ≤ (l.dropWhile (fun c => c = '\r' || c = '\n')).length := length_dropWhile_le _ _
        _ < l.length := by
            rcases l with _ | ⟨c, l⟩
            · simp [List.takeWhile] at h1
            · by_cases hc : (c = '\r' || c = '\n') = true
              · simp only [List.dropWhile, hc]
                exact Nat.lt_succ_of_le (length_dropWhile_le _ _)
              · simp [List.takeWhile, hc] at h1

/-- The global replacement of `re_comment_star_end` by `"\n"`: scan left to
right, replacing each non-overlapping match. -/
def replaceStarEnd : List Char → List Char
  | [] => []
  | c :: rest =>
    match h : tryStarEnd (c :: rest) with
    | some remaining => '\n' :: replaceStarEnd remaining
    | none => c :: replaceStarEnd rest
termination_by l => l.length
decreasing_by
  · exact tryStarEnd_length h
  · simp

/-- `FormatDocumentationComment` from database.ts: replace every
`re_comment_star_end` match by a newline, then the (at most one, since `^`
without the `m` flag only matches at the very start) `re_comment_star_start`
match by a space, then trim. -/
def FormatDocumentationComment (doc : String) : String :=
  let afterEnd := replaceStarEnd doc.data
  let afterStart :=
    match tryStarStart afterEnd with
    | some rest => ' ' :: rest
    | none => afterEnd
  String.mk (listTrim afterStart)

/-- The JSON shape of one property value: an array whose element 0 is the
type name and optional element 1 the raw documentation. -/
structure PropJSON where
  entries : List String
  deriving DecidableEq, Repr

/-- The JSON shape of one argument record (`{"type","name"?,"default"?}`). -/
structure ArgJSON where
  name : Option String
  type : String
  default : Option String
  deriving DecidableEq, Repr

/-- The JSON shape of one method record. -/
structure MethodJSON where
  name : String
  ret : Option String
  args : Option (List ArgJSON)
  doc : Option String
  isConstructor : Option Bool
  const : Option Bool
  event : Option Bool
  deriving DecidableEq, Repr

/-- The JSON shape of one type record of the ingestion schema. -/
structure TypeJSON where
  properties : List (String × PropJSON)
  methods : List MethodJSON
  subtypes : Option (List String)
  supertype : Option String
  inherits : Option String
  doc : Option String
  isStruct : Option Bool
  isEnum : Option Bool
  deriving DecidableEq, Repr

/-- `DBProperty.fromJSON`: `typename` from `input[0]` (`undefined`, modelled
as `""`, when the array is empty — the schema always has element 0),
documentation from `input[1]` when `input.length >= 2`; flags set false. -/
def DBProperty.fromJSON (name : String) (input : PropJSON) : DBProperty :=
  { name := name
    typename := input.entries.headD ""
    documentation :=
      match input.entries with
      | _ :: d :: _ => some (FormatDocumentationComment d)
      | _ => none
    isProtected := false
    isPrivate := false }

/-- `DBArg.fromJSON`: absent `name`/`default` become `null`. -/
def DBArg.fromJSON (input : ArgJSON) : DBArg :=
  { name := input.name
    typename := input.type
    defaultvalue := input.default }

/-- `DBMethod.fromJSON`: missing `return` defaults to `"void"`, missing
`args` to the empty list, missing booleans to `false`, missing `doc` to
`null`; `argumentStr` and `declaredModule` are never assigned. -/
def DBMethod.fromJSON (input : MethodJSON) : DBMethod :=
  { name := input.name
    returnType := input.ret.getD "void"
    args := (input.args.getD []).map DBArg.fromJSON
    documentation := input.doc.map FormatDocumentationComment
    isConstructor := input.isConstructor.getD false
    isConst := input.const.getD false
    isEvent := input.event.getD false
    argumentStr := none
    declaredModule := none
    isProtected := false
    isPrivate := false }

/-- `DBType.fromJSON`: note the crisscross — the JSON key `supertype` feeds
the engine superclass field `unrealsuper`, while the key `inherits` feeds
`supertype`.  `declaredModule`, `siblingTypes`, the namespace cache and the
remaining flags are never assigned and keep the fresh object's defaults. -/
def DBType.fromJSON (name : String) (input : TypeJSON) : DBType :=
  { typename := name
    properties := input.properties.map (fun kv => DBProperty.fromJSON kv.1 kv.2)
    methods := input.methods.map DBMethod.fromJSON
    subTypes := input.subtypes
    unrealsuper := input.supertype
    supertype := input.inherits
    documentation := input.doc.map FormatDocumentationComment
    isStruct := input.isStruct.getD false
    isEnum := input.isEnum.getD false
    isNS := false
    rawName := none
    namespaceResolved := false
    shadowedNamespace := false
    isDelegate := false
    isEvent := false
    isPrimitive := false
    declaredModule := none
    siblingTypes := none }

/-- `AddTypesFromUnreal`: for each key of the reflection dump, build the type
with `fromJSON` and `database.set` it. -/
def AddTypesFromUnreal (r : Registry) (input : List (String × TypeJSON)) : Registry :=
  input.foldl (fun acc kv => dbSet acc kv.1 (DBType.fromJSON kv.1 kv.2)) r

/-! ### Registry lemmas -/

theorem dbGet_eq_none_iff {r : Registry} {k : String} :
    dbGet r k = none ↔ ∀ e ∈ r, e.1 ≠ k := by
  simp only [dbGet, Option.map_eq_none', List.find?_eq_none, beq_iff_eq]

theorem dbSet_of_dbGet_none {r : Registry} {k : String} (v : DBType)
    (h : dbGet r k = none) : dbSet r k v = r ++ [(k, v)] := by
  have h' := dbGet_eq_none_iff.mp h
  unfold dbSet
  rw [if_neg]
  simp only [List.any_eq_true, beq_iff_eq, not_exists, not_and]
  intro e he
  exact fun hk => h' e he hk

theorem dbGet_append_single_self {r : Registry} {k : String} (v : DBType)
    (h : dbGet r k = none) : dbGet (r ++ [(k, v)]) k = some v := by
  have h' := dbGet_eq_none_iff.mp h
  unfold dbGet at *
  rw [List.find?_append]
  simp only [Option.map_eq_none'] at h
  rw [h]
  simp

theorem dbGet_mem {r : Registry} {k : String} {v : DBType}
    (h : dbGet r k = some v) : (k, v) ∈ r := by
  unfold dbGet at h
  rcases Option.map_eq_some'.mp h with ⟨e, he, hev⟩
  have := List.find?_some he
  have hm := List.mem_of_find?_eq_some he
  rw [beq_iff_eq] at this
  subst hev; rw [← this]; exact hm

theorem dbGet_filter {r : Registry} {k : String} {v : DBType}
    (p : String × DBType → Bool)
    (hnd : (r.map Prod.fst).Nodup) (h : dbGet r k = some v) :
    dbGet (r.filter p) k = if p (k, v) then some v else none := by
  induction r with
  | nil => simp [dbGet] at h
  | cons e rest ih =>
    simp only [List.map_cons, List.nodup_cons] at hnd
    by_cases hk : e.1 = k
    · have hv : e.2 = v := by
        unfold dbGet at h
        rw [List.find?_cons_of_pos _ (by simpa using hk)] at h
        simpa using h
      have hrest : dbGet rest k = none := by
        rw [dbGet_eq_none_iff]
        intro e' he' hek
        apply hnd.1
        rw [hk]
        rw [← hek]
        exact List.mem_map_of_mem Prod.fst he'
      have he : e = (k, v) := by
        rcases e with ⟨a, b⟩; simp only at hk hv; rw [hk, hv]
      subst he
      by_cases hp : p (k, v)
      · rw [List.filter_cons_of_pos hp, if_pos hp]
        unfold dbGet
        rw [List.find?_cons_of_pos _ (by simp)]
        simp
      · rw [List.filter_cons_of_neg (by simpa using hp), if_neg hp]
        rw [show (rest.filter p : Registry) = rest.filter p from rfl]
        rw [dbGet_eq_none_iff]
        intro e' he' hek
        exact (dbGet_eq_none_iff.mp hrest) e' (List.mem_of_mem_filter he') hek
    · have h' : dbGet rest k = some v := by
        unfold dbGet at h ⊢
        rw [List.find?_cons_of_neg _ (by simpa using hk)] at h
        exact h
      have := ih hnd.2 h'
      by_cases hp : p e
      · rw [List.filter_cons_of_pos hp]
        unfold dbGet at this ⊢
        rw [List.find?_cons_of_neg _ (by simpa using hk)]
        exact this
      · rw [List.filter_cons_of_neg (by simpa using hp)]
        exact this

theorem dbGet_filter_none {r : Registry} {k : String}
    (p : String × DBType → Bool) (h : dbGet r k = none) :
    dbGet (r.filter p) k = none := by
  rw [dbGet_eq_none_iff] at h ⊢
  exact fun e he => h e (List.mem_of_mem_filter he)

theorem dbSet_keys_nodup {r : Registry} {k : String} {v : DBType}
    (hnd : (r.map Prod.fst).Nodup) : ((dbSet r k v).map Prod.fst).Nodup := by
  unfold dbSet
  by_cases ha : r.any (fun e => e.1 == k)
  · rw [if_pos ha]
    have : (r.map (fun e => if e.1 == k then (k, v) else e)).map Prod.fst = r.map Prod.fst := by
      rw [List.map_map]
      apply List.map_congr_left
      intro e _
      by_cases hk : e.1 = k
      · simp [Function.comp, hk]
      · simp [Function.comp, hk]
    rw [this]
    exact hnd
  · rw [if_neg ha]
    rw [List.map_append]
    simp only [List.map_cons, List.map_nil]
    rw [List.nodup_append]
    refine ⟨hnd, List.nodup_singleton k, ?_⟩
    intro a hma hmb
    simp only [List.mem_singleton] at hmb
    subst hmb
    simp only [List.any_eq_true, beq_iff_eq, not_exists, not_and] at ha
    rcases List.mem_map.mp hma with ⟨e, he, hek⟩
    exact ha e he hek

/-! ### GetType lemmas -/

theorem getTypeAux_zero (r : Registry) (s : String) :
    getTypeAux 0 r s = Except.error () := rfl

theorem getTypeAux_succ (fuel : Nat) (r : Registry) (s : String) :
    getTypeAux (fuel + 1) r s = getTypeStep (getTypeAux fuel) r s := rfl

theorem getTypeAux_one_ok {r r1 : Registry} {b : String} {o : Option DBType}
    (h : getTypeAux 1 r b = Except.ok (o, r1)) :
    r1 = r ∧ o = dbGet r (CleanTypeName b) := by
  rw [show (1 : Nat) = 0 + 1 from rfl, getTypeAux_succ] at h
  unfold getTypeStep at h
  split at h
  next f heq =>
    simp only [Except.ok.injEq, Prod.mk.injEq] at h
    exact ⟨h.2.symm, by rw [heq, ← h.1]⟩
  next heq =>
    split at h
    · split at h
      next basetype argstr hp =>
        rw [getTypeAux_zero] at h
        simp at h
      next =>
        simp only [Except.ok.injEq, Prod.mk.injEq] at h
        exact ⟨h.2.symm, by rw [heq, ← h.1]⟩
    · simp only [Except.ok.injEq, Prod.mk.injEq] at h
      exact ⟨h.2.symm, by rw [heq, ← h.1]⟩

theorem getTypeAux_one_hit {r : Registry} {b : String} {d : DBType}
    (h : dbGet r (CleanTypeName b) = some d) :
    getTypeAux 1 r b = Except.ok (some d, r) := by
  rw [show (1 : Nat) = 0 + 1 from rfl, getTypeAux_succ]
  unfold getTypeStep
  rw [h]

theorem tryMatchAt_mem_lt {l : List Char} {p : List Char × List Char}
    (h : tryMatchAt l = some p) : '<' ∈ l := by
  unfold tryMatchAt at h
  by_cases h1 : (l.takeWhile isWordChar).isEmpty
  · simp [h1] at h
  · simp only [h1, Bool.false_eq_true, if_false] at h
    cases hd : l.dropWhile isWordChar with
    | nil => rw [hd] at h; simp at h
    | cons c2 l2 =>
      rw [hd] at h
      by_cases hc2 : c2 = '<'
      · subst hc2
        have : '<' ∈ l.dropWhile isWordChar := by rw [hd]; exact List.mem_cons_self _ _
        exact (List.dropWhile_suffix isWordChar).subset this
      · exfalso
        cases c2
        simp_all

theorem findTemplate_mem_lt {l : List Char} {p : List Char × List Char}
    (h : findTemplate l = some p) : '<' ∈ l := by
  induction l with
  | nil => simp [findTemplate] at h
  | cons c rest ih =>
    unfold findTemplate at h
    cases ht : tryMatchAt (c :: rest) with
    | some q => exact tryMatchAt_mem_lt ht
    | none =>
      rw [ht] at h
      exact List.mem_cons_of_mem c (ih h)

theorem matchTemplate_contains_lt {s : String} {p : String × String}
    (h : matchTemplate s = some p) : s.data.contains '<' = true := by
  unfold matchTemplate at h
  cases hf : findTemplate s.data with
  | none => rw [hf] at h; simp at h
  | some q => exact List.elem_eq_true_of_mem (findTemplate_mem_lt hf)

/-- Forward computation of `GetType` through the template-instantiation path. -/
theorem getType_instantiate {r : Registry} {s b astr : String} {base inst0 : DBType}
    (hmiss : dbGet r (CleanTypeName s) = none)
    (hm : matchTemplate (CleanTypeName s) = some (b, astr))
    (hb : dbGet r (CleanTypeName b) = some base)
    (hinst : base.createTemplateInstance ((jsSplitComma astr).map jsTrim) =
      Except.ok (some inst0)) :
    GetType r s =
      Except.ok (some { inst0 with typename := CleanTypeName s },
        r ++ [(CleanTypeName s, { inst0 with typename := CleanTypeName s })]) := by
  unfold GetType
  rw [show (2 : Nat) = 1 + 1 from rfl, getTypeAux_succ]
  simp only [getTypeStep, hmiss, matchTemplate_contains_lt hm, if_true, hm,
    getTypeAux_one_hit hb, hinst]
  rw [dbSet_of_dbGet_none _ hmiss]

/-- Inversion of `GetType` on a cache miss that returned a type: it went
through the template path and appended exactly one entry under the cleaned
queried name. -/
theorem getType_miss_ok_some {r r' : Registry} {s : String} {t : DBType}
    (hmiss : dbGet r (CleanTypeName s) = none)
    (h : GetType r s = Except.ok (some t, r')) :
    t.typename = CleanTypeName s ∧
    dbGet r' (CleanTypeName s) = some t ∧
    r' = r ++ [(CleanTypeName s, t)] := by
  unfold GetType at h
  rw [show (2 : Nat) = 1 + 1 from rfl, getTypeAux_succ] at h
  unfold getTypeStep at h
  generalize htn : CleanTypeName s = tn at h hmiss ⊢
  simp only [hmiss] at h
  split at h
  · split at h
    next basetype argstr hp =>
      cases hr : getTypeAux 1 r basetype with
      | error e => rw [hr] at h; simp at h
      | ok v =>
        cases v with
        | mk o r1 =>
          rcases getTypeAux_one_ok hr with ⟨hr1, ho⟩
          subst hr1
          cases o with
          | none => rw [hr] at h; simp at h
          | some dbbasetype =>
            simp only [hr] at h
            cases hc : dbbasetype.createTemplateInstance
                ((jsSplitComma argstr).map jsTrim) with
            | error e => simp only [hc] at h; exact absurd h (by simp)
            | ok oi =>
              cases oi with
              | none => simp only [hc] at h; exact absurd h (by simp)
              | some inst0 =>
                simp only [hc, Except.ok.injEq, Prod.mk.injEq, Option.some.injEq] at h
                obtain ⟨h1, h2⟩ := h
                subst t
                rw [dbSet_of_dbGet_none _ hmiss] at h2
                exact ⟨rfl, by rw [← h2]; exact dbGet_append_single_self _ hmiss, h2.symm⟩
    next => exact absurd h (by simp)
  · exact absurd h (by simp)

theorem getTypeStep_hit {r : Registry} {s : String} {d : DBType}
    (rec : Registry → String → Except Unit (Option DBType × Registry))
    (h : dbGet r (CleanTypeName s) = some d) :
    getTypeStep rec r s = Except.ok (some d, r) := by
  unfold getTypeStep
  rw [h]

theorem getType_hit {r : Registry} {s : String} {d : DBType}
    (h : dbGet r (CleanTypeName s) = some d) :
    GetType r s = Except.ok (some d, r) := by
  unfold GetType
  rw [show (2 : Nat) = 1 + 1 from rfl, getTypeAux_succ]
  exact getTypeStep_hit _ h

/-! ### Concrete fixtures used by the claim witnesses -/

/-- A `DBType` with every unassigned field at the fresh-object default
(`new DBType()` with `initEmpty`-style empty member lists). -/
def mkBareType (name : String) : DBType :=
  { typename := name, supertype := none, properties := [], methods := []
    unrealsuper := none, documentation := none, isStruct := false, isNS := false
    isEnum := false, rawName := none, namespaceResolved := false
    shadowedNamespace := false, isDelegate := false, isEvent := false
    isPrimitive := false, declaredModule := none, siblingTypes := none
    subTypes := none }

/-- A generic `Array<T>` base whose `value` property has type `T`. -/
def arrayBase : DBType :=
  { mkBareType "Array" with
    properties := [{ name := "value", typename := "T", documentation := none
                     isProtected := false, isPrivate := false }]
    subTypes := some ["T"] }

/-- The registry holding only the `Array<T>` base. -/
def regArray : Registry := [("Array", arrayBase)]

/-- The instance `GetType` builds for `Array<int>` from `arrayBase`. -/
def arrayIntInst : DBType :=
  { mkBareType "Array<int>" with
    properties := [{ name := "value", typename := "int", documentation := none
                     isProtected := false, isPrivate := false }] }

/-- C1: the registry lookup of a generic name whose base has a different
placeholder count does NOT return none gracefully: `createTemplateInstance`
does return `null` for the mismatch, but `GetType` assigns `inst.typename`
before its `if (!inst)` guard, so the lookup throws a `TypeError`
(`Except.error`) instead of returning none.  Concretely: `Array` has one
placeholder `T`, and looking up `Array<int,float>` (two arguments) crashes. -/
theorem getType_arity_mismatch_crashes :
    arrayBase.createTemplateInstance ["int", "float"] = Except.ok none ∧
    GetType regArray "Array<int,float>" = Except.error () := by
  constructor
  · decide
  · decide

/-- C2: a first lookup of a generic name that succeeds by template
instantiation stores the new type in the registry under the (decoration
cleaned) queried name, and a second lookup of the same name returns exactly
the cached instance with the registry unchanged (no re-instantiation). -/
theorem getType_caches_template_instance {r r' : Registry} {s : String} {t : DBType}
    (hmiss : dbGet r (CleanTypeName s) = none)
    (h : GetType r s = Except.ok (some t, r')) :
    dbGet r' (CleanTypeName s) = some t ∧
    GetType r' s = Except.ok (some t, r') := by
  rcases getType_miss_ok_some hmiss h with ⟨-, hget, -⟩
  exact ⟨hget, getType_hit hget⟩

theorem getType_caches_template_instance_witness :
    dbGet (regArray ++ [("Array<int>", arrayIntInst)]) (CleanTypeName "Array<int>") =
      some arrayIntInst ∧
    GetType (regArray ++ [("Array<int>", arrayIntInst)]) "Array<int>" =
      Except.ok (some arrayIntInst, regArray ++ [("Array<int>", arrayIntInst)]) :=
  @getType_caches_template_instance regArray (regArray ++ [("Array<int>", arrayIntInst)])
    "Array<int>" arrayIntInst (by decide) (by decide)

/-- A generic `Box<T>` base with one placeholder-typed property and one
decorated property whose type matches no placeholder. -/
def boxBase : DBType :=
  { mkBareType "Box" with
    properties := [{ name := "value", typename := "T", documentation := none
                     isProtected := false, isPrivate := false },
                   { name := "other", typename := "Foo@", documentation := none
                     isProtected := false, isPrivate := false }]
    subTypes := some ["T"] }

/-- C3 counterexample: a property type name that matches no placeholder is
NOT left unchanged when it carries decoration: instantiating `Box<int>` from
a base whose `other` property has type `Foo@` yields `Foo`, not `Foo@` (the
`value : T` property does become `int`). -/
theorem replace_cleans_nonmatching_names :
    (GetType [("Box", boxBase)] "Box<int>").map
      (fun p => p.1.map (fun t => t.properties.map (fun q => q.typename))) =
      Except.ok (some ["int", "Foo"]) ∧
    boxBase.properties.map (fun q => q.typename) = ["T", "Foo@"] ∧
    ("Foo" : String) ≠ "Foo@" := by
  refine ⟨by decide, by decide, by decide⟩

/-- C3 (amended): for a generic base with placeholder list `[T]`, looking up
the base applied to one concrete type name substitutes that name for every
property whose type cleans to exactly `T`; a property type matching no
placeholder is returned decoration-cleaned but otherwise unchanged. -/
theorem template_substitution_single_placeholder
    {r : Registry} {q bn astr a : String} {base : DBType}
    (hmiss : dbGet r (CleanTypeName q) = none)
    (hm : matchTemplate (CleanTypeName q) = some (bn, astr))
    (hsplit : (jsSplitComma astr).map jsTrim = [a])
    (hb : dbGet r (CleanTypeName bn) = some base)
    (hsub : base.subTypes = some ["T"]) :
    ∃ inst, GetType r q = Except.ok (some inst, r ++ [(CleanTypeName q, inst)]) ∧
      inst.properties = base.properties.map (fun p =>
        { name := p.name
          typename := if CleanTypeName p.typename = "T" then a else CleanTypeName p.typename
          documentation := none, isProtected := false, isPrivate := false }) := by
  have hinst : base.createTemplateInstance ((jsSplitComma astr).map jsTrim) =
      Except.ok (some
        { typename := base.typename, supertype := base.supertype, isNS := base.isNS
          isEnum := base.isEnum, rawName := base.rawName
          namespaceResolved := base.namespaceResolved
          shadowedNamespace := base.shadowedNamespace
          declaredModule := base.declaredModule, siblingTypes := base.siblingTypes
          subTypes := none
          properties := base.properties.map (fun p => p.createTemplateInstance ["T"] [a])
          methods := base.methods.map (fun m => m.createTemplateInstance ["T"] [a])
          unrealsuper := none, documentation := none, isStruct := false
          isDelegate := false, isEvent := false, isPrimitive := false }) := by
    rw [hsplit]
    unfold DBType.createTemplateInstance
    rw [hsub]
    simp
  refine ⟨_, getType_instantiate hmiss hm hb hinst, ?_⟩
  show base.properties.map (fun p => p.createTemplateInstance ["T"] [a]) = _
  apply List.map_congr_left
  intro p _
  unfold DBProperty.createTemplateInstance ReplaceTemplateType
  simp [replaceScan]

theorem template_substitution_single_placeholder_witness :
    ∃ inst, GetType [("Box", boxBase)] "Box<int>" =
      Except.ok (some inst, [("Box", boxBase)] ++ [(CleanTypeName "Box<int>", inst)]) ∧
      inst.properties = boxBase.properties.map (fun p =>
        { name := p.name
          typename := if CleanTypeName p.typename = "T" then "int" else CleanTypeName p.typename
          documentation := none, isProtected := false, isPrivate := false }) :=
  @template_substitution_single_placeholder [("Box", boxBase)] "Box<int>" "Box" "int" "int"
    boxBase (by decide) (by decide) (by decide) (by decide) (by decide)

/-- A generic base carrying every attribute the claim says is copied:
`isStruct`, documentation, engine superclass, a protected documented
property and a method with documentation and flags. -/
def richBase : DBType :=
  { mkBareType "Rich" with
    supertype := some "Base"
    unrealsuper := some "UBase"
    documentation := some "doc"
    isStruct := true
    isEnum := true
    declaredModule := some "m"
    siblingTypes := some ["Sib"]
    subTypes := some ["T"]
    properties := [{ name := "p", typename := "T", documentation := some "pdoc"
                     isProtected := true, isPrivate := true }]
    methods := [{ name := "f", returnType := "T", args := []
                  argumentStr := some "T x", documentation := some "mdoc"
                  declaredModule := some "m", isProtected := true, isPrivate := true
                  isConstructor := true, isEvent := true, isConst := true }] }

/-- The instance the code actually builds from `richBase` for `<int>`. -/
def richInst : DBType :=
  { mkBareType "Rich" with
    supertype := some "Base"
    isEnum := true
    declaredModule := some "m"
    siblingTypes := some ["Sib"]
    properties := [{ name := "p", typename := "int", documentation := none
                     isProtected := false, isPrivate := false }]
    methods := [{ name := "f", returnType := "int", args := []
                  argumentStr := some "T x", documentation := some "mdoc"
                  declaredModule := none, isProtected := false, isPrivate := false
                  isConstructor := false, isEvent := false, isConst := false }] }

/-- C4 counterexample: the constructed instance does NOT copy all scalar
attributes and flags: `isStruct`, `documentation` and the engine superclass
(`unrealsuper`) of the base are dropped (left at the fresh-object defaults),
and the instantiated property's documentation and protection flags are
dropped as well. -/
theorem template_instance_drops_attributes :
    richBase.createTemplateInstance ["int"] = Except.ok (some richInst) ∧
    (richBase.isStruct, richBase.documentation, richBase.unrealsuper) =
      (true, some "doc", some "UBase") ∧
    (richInst.isStruct, richInst.documentation, richInst.unrealsuper) =
      (false, none, none) ∧
    richBase.properties.map (fun p => (p.documentation, p.isProtected, p.isPrivate)) =
      [(some "pdoc", true, true)] ∧
    richInst.properties.map (fun p => (p.documentation, p.isProtected, p.isPrivate)) =
      [(none, false, false)] := by
  refine ⟨by decide, by decide, by decide, by decide, by decide⟩

/-- C4 (amended): for a matching placeholder count the instance copies
`typename`, `supertype`, the namespace-resolution state (`isNS`, `rawName`,
`namespaceResolved`, `shadowedNamespace`), `isEnum`, `declaredModule` and
`siblingTypes` from the base and substitutes property and method types by
textual match; but `isStruct`, `documentation` and the engine superclass are
left unset, `subTypes` is cleared, properties keep only name and substituted
type (documentation and protection flags dropped), and methods keep
name/argument string/documentation with substituted return and argument
types while their protection and other flags reset to false. -/
theorem template_instance_copied_fields {base : DBType} {sub as : List String}
    (hsub : base.subTypes = some sub) (hlen : as.length = sub.length) :
    ∃ inst, base.createTemplateInstance as = Except.ok (some inst) ∧
      inst.typename = base.typename ∧
      inst.supertype = base.supertype ∧
      inst.isNS = base.isNS ∧
      inst.isEnum = base.isEnum ∧
      inst.rawName = base.rawName ∧
      inst.namespaceResolved = base.namespaceResolved ∧
      inst.shadowedNamespace = base.shadowedNamespace ∧
      inst.declaredModule = base.declaredModule ∧
      inst.siblingTypes = base.siblingTypes ∧
      inst.subTypes = none ∧
      inst.isStruct = false ∧
      inst.documentation = none ∧
      inst.unrealsuper = none ∧
      inst.properties = base.properties.map (fun p =>
        { name := p.name, typename := ReplaceTemplateType p.typename sub as
          documentation := none, isProtected := false, isPrivate := false }) ∧
      inst.methods = base.methods.map (fun m =>
        { name := m.name, returnType := ReplaceTemplateType m.returnType sub as
          argumentStr := m.argumentStr, documentation := m.documentation
          args := m.args.map (fun arg =>
            { name := arg.name, defaultvalue := arg.defaultvalue
              typename := ReplaceTemplateType arg.typename sub as })
          declaredModule := none, isProtected := false, isPrivate := false
          isConstructor := false, isEvent := false, isConst := false }) := by
  refine ⟨{ typename := base.typename
            supertype := base.supertype
            isNS := base.isNS
            isEnum := base.isEnum
            rawName := base.rawName
            namespaceResolved := base.namespaceResolved
            shadowedNamespace := base.shadowedNamespace
            declaredModule := base.declaredModule
            siblingTypes := base.siblingTypes
            subTypes := none
            properties := base.properties.map (fun p => p.createTemplateInstance sub as)
            methods := base.methods.map (fun m => m.createTemplateInstance sub as)
            unrealsuper := none
            documentation := none
            isStruct := false
            isDelegate := false
            isEvent := false
            isPrimitive := false },
    ?_, rfl, rfl, rfl, rfl, rfl, rfl, rfl, rfl, rfl, rfl, rfl, rfl, rfl, rfl, rfl⟩
  unfold DBType.createTemplateInstance
  simp only [hsub]
  rw [if_neg (by omega)]

theorem template_instance_copied_fields_witness :
    ∃ inst, richBase.createTemplateInstance ["int"] = Except.ok (some inst) ∧
      inst.typename = richBase.typename ∧
      inst.supertype = richBase.supertype ∧
      inst.isNS = richBase.isNS ∧
      inst.isEnum = richBase.isEnum ∧
      inst.rawName = richBase.rawName ∧
      inst.namespaceResolved = richBase.namespaceResolved ∧
      inst.shadowedNamespace = richBase.shadowedNamespace ∧
      inst.declaredModule = richBase.declaredModule ∧
      inst.siblingTypes = richBase.siblingTypes ∧
      inst.subTypes = none ∧
      inst.isStruct = false ∧
      inst.documentation = none ∧
      inst.unrealsuper = none ∧
      inst.properties = richBase.properties.map (fun p =>
        { name := p.name, typename := ReplaceTemplateType p.typename ["T"] ["int"]
          documentation := none, isProtected := false, isPrivate := false }) ∧
      inst.methods = richBase.methods.map (fun m =>
        { name := m.name, returnType := ReplaceTemplateType m.returnType ["T"] ["int"]
          argumentStr := m.argumentStr, documentation := m.documentation
          args := m.args.map (fun arg =>
            { name := arg.name, defaultvalue := arg.defaultvalue
              typename := ReplaceTemplateType arg.typename ["T"] ["int"] })
          declaredModule := none, isProtected := false, isPrivate := false
          isConstructor := false, isEvent := false, isConst := false }) :=
  @template_instance_copied_fields richBase ["T"] ["int"] (by decide) (by decide)

/-- A generic base declared in module `m`. -/
def fooBase : DBType :=
  { mkBareType "Foo" with declaredModule := some "m", subTypes := some ["T"] }

/-- The instance `GetType` builds for `Foo<int>`: it inherits
`declaredModule = "m"` from its base. -/
def fooIntInst : DBType :=
  { mkBareType "Foo<int>" with declaredModule := some "m" }

/-- The registry after instantiating `Foo<int>` from `fooBase`. -/
def regFoo2 : Registry := [("Foo", fooBase), ("Foo<int>", fooIntInst)]

/-- C6 counterexample: a template instance derived from a generic base
declared in module `m` inherits the base's `declaredModule`, so
`removeModule("m")` DOES remove it (the whole registry empties). -/
theorem remove_module_removes_derived_instances :
    GetType [("Foo", fooBase)] "Foo<int>" = Except.ok (some fooIntInst, regFoo2) ∧
    fooIntInst.declaredModule = some "m" ∧
    RemoveTypesInModule "m" regFoo2 = [] ∧
    dbGet (RemoveTypesInModule "m" regFoo2) "Foo<int>" = none := by
  refine ⟨by decide, by decide, by decide, by decide⟩

/-- C6 (amended): `removeModule(m)` deletes exactly the entries whose
`declaredModule` equals `m` and leaves every other entry unchanged; since a
template instance copies its base's `declaredModule`, an instance derived
from a base declared in module `m` is itself removed by `removeModule(m)`
(instances of module-less bases survive). -/
theorem remove_module_exact :
    (∀ (m : String) (r : Registry) (k : String) (v : DBType),
      (r.map Prod.fst).Nodup → dbGet r k = some v →
      dbGet (RemoveTypesInModule m r) k =
        (if v.declaredModule = some m then none else some v)) ∧
    (∀ (m : String) (r : Registry) (k : String),
      dbGet r k = none → dbGet (RemoveTypesInModule m r) k = none) ∧
    (∀ (base : DBType) (as : List String) (inst : DBType),
      base.createTemplateInstance as = Except.ok (some inst) →
      inst.declaredModule = base.declaredModule) := by
  refine ⟨?_, ?_, ?_⟩
  · intro m r k v hnd hget
    unfold RemoveTypesInModule
    rw [dbGet_filter _ hnd hget]
    by_cases hm : v.declaredModule = some m
    · rw [if_pos hm, if_neg]
      simp [hm]
    · rw [if_neg hm, if_pos]
      simp [hm]
  · intro m r k hget
    exact dbGet_filter_none _ hget
  · intro base as inst h
    unfold DBType.createTemplateInstance at h
    cases hsub : base.subTypes with
    | none => rw [hsub] at h; simp at h
    | some sub =>
      simp only [hsub] at h
      by_cases hlen : as.length ≠ sub.length
      · rw [if_pos hlen] at h; simp at h
      · rw [if_neg hlen] at h
        simp only [Except.ok.injEq, Option.some.injEq] at h
        rw [← h]

theorem remove_module_exact_witness :
    dbGet (RemoveTypesInModule "m" regFoo2) "Foo<int>" =
      (if fooIntInst.declaredModule = some "m" then none else some fooIntInst) ∧
    dbGet (RemoveTypesInModule "m" regFoo2) "Bar" = none ∧
    ({ mkBareType "Foo" with declaredModule := some "m" } : DBType).declaredModule =
      fooBase.declaredModule :=
  ⟨remove_module_exact.1 "m" regFoo2 "Foo<int>" fooIntInst (by decide) (by decide),
   remove_module_exact.2.1 "m" regFoo2 "Bar" (by decide),
   remove_module_exact.2.2 fooBase ["int"]
     { mkBareType "Foo" with declaredModule := some "m" } (by decide)⟩

/-- C8: for every type and name, the accessor type is the return type of a
found `get_<name>` method; otherwise the first argument type of a found
`set_<name>` method with at least one argument; otherwise none (also when the
setter is found but takes no arguments).  Stated against every outcome of the
underlying `getMethod` lookups, with the registry threading of the source. -/
theorem accessor_type_from_get_set :
    (∀ (t : DBType) (n : String) (r r1 : Registry) (fuel : Nat) (g : DBMethod),
      t.getMethod ("get_" ++ n) r fuel = some (Except.ok (some g, r1)) →
      t.getPropertyAccessorType n r fuel = some (Except.ok (some g.returnType, r1))) ∧
    (∀ (t : DBType) (n : String) (r r1 r2 : Registry) (fuel : Nat)
      (s : DBMethod) (a : DBArg) (rest : List DBArg),
      t.getMethod ("get_" ++ n) r fuel = some (Except.ok (none, r1)) →
      t.getMethod ("set_" ++ n) r1 fuel = some (Except.ok (some s, r2)) →
      s.args = a :: rest →
      t.getPropertyAccessorType n r fuel = some (Except.ok (some a.typename, r2))) ∧
    (∀ (t : DBType) (n : String) (r r1 r2 : Registry) (fuel : Nat) (s : DBMethod),
      t.getMethod ("get_" ++ n) r fuel = some (Except.ok (none, r1)) →
      t.getMethod ("set_" ++ n) r1 fuel = some (Except.ok (some s, r2)) →
      s.args = [] →
      t.getPropertyAccessorType n r fuel = some (Except.ok (none, r2))) ∧
    (∀ (t : DBType) (n : String) (r r1 r2 : Registry) (fuel : Nat),
      t.getMethod ("get_" ++ n) r fuel = some (Except.ok (none, r1)) →
      t.getMethod ("set_" ++ n) r1 fuel = some (Except.ok (none, r2)) →
      t.getPropertyAccessorType n r fuel = some (Except.ok (none, r2))) := by
  refine ⟨?_, ?_, ?_, ?_⟩
  · intro t n r r1 fuel g hg
    unfold DBType.getPropertyAccessorType
    rw [hg]
  · intro t n r r1 r2 fuel s a rest hg hs hargs
    unfold DBType.getPropertyAccessorType
    simp only [hg, hs, hargs, List.head?]
  · intro t n r r1 r2 fuel s hg hs hargs
    unfold DBType.getPropertyAccessorType
    simp only [hg, hs, hargs, List.head?]
  · intro t n r r1 r2 fuel hg hs
    unfold DBType.getPropertyAccessorType
    simp only [hg, hs]

/-- The lone `get_Health` accessor method returning `float`. -/
def healthGetter : DBMethod :=
  { name := "get_Health", returnType := "float", args := []
    argumentStr := none, documentation := none, declaredModule := none
    isProtected := false, isPrivate := false, isConstructor := false
    isEvent := false, isConst := false }

/-- A type declaring only `get_Health` returning `float`. -/
def healthType : DBType :=
  { mkBareType "Pawn" with methods := [healthGetter] }

theorem accessor_type_from_get_set_witness :
    healthType.getPropertyAccessorType "Health" [] 1 =
      some (Except.ok (some "float", [])) := by
  have hg : healthType.getMethod ("get_" ++ "Health") [] 1 =
      some (Except.ok (some healthGetter, [])) := by decide
  have := accessor_type_from_get_set.1 healthType "Health" [] [] 1 healthGetter hg
  exact this

/-- C9: on first query (`namespaceResolved` not yet set) a type is classified
as a namespace exactly when its name starts with the two-character `__`
sigil, and it is a shadowed namespace exactly when it is a namespace AND the
registry currently holds an entry under the name with the sigil stripped; a
non-namespace type is never a shadowed namespace. -/
theorem namespace_classification (t : DBType) (r : Registry)
    (h : t.namespaceResolved = false) :
    (t.isNamespace r).1 = jsStartsWith t.typename "__" ∧
    (t.isShadowedNamespace r).1 =
      (jsStartsWith t.typename "__" && (dbGet r (jsDrop t.typename 2)).isSome) := by
  unfold DBType.isNamespace DBType.isShadowedNamespace DBType.resolveNamespace
  rw [h]
  by_cases hn : jsStartsWith t.typename "__"
  · simp [hn]
  · simp [hn]

theorem namespace_classification_witness :
    ((mkBareType "__Math").isNamespace [("Math", mkBareType "Math")]).1 =
      jsStartsWith "__Math" "__" ∧
    ((mkBareType "__Math").isShadowedNamespace [("Math", mkBareType "Math")]).1 =
      (jsStartsWith "__Math" "__" &&
        (dbGet [("Math", mkBareType "Math")] (jsDrop "__Math" 2)).isSome) :=
  namespace_classification (mkBareType "__Math") [("Math", mkBareType "Math")] (by decide)

theorem dbGet_dbSet_self (r : Registry) (k : String) (v : DBType) :
    dbGet (dbSet r k v) k = some v := by
  unfold dbGet dbSet
  by_cases ha : r.any (fun e => e.1 == k)
  · rw [if_pos ha]
    induction r with
    | nil => simp at ha
    | cons e rest ih =>
      by_cases hk : e.1 = k
      · simp only [List.map_cons]
        rw [if_pos (by simpa using hk)]
        rw [List.find?_cons_of_pos _ (by simp)]
        simp
      · simp only [List.map_cons]
        rw [if_neg (by simpa using hk)]
        rw [List.find?_cons_of_neg _ (by simpa using hk)]
        apply ih
        simp only [List.any_cons, Bool.or_eq_true] at ha
        rcases ha with ha | ha
        · exact absurd (by simpa using ha) hk
        · exact ha
  · rw [if_neg ha]
    rw [List.find?_append]
    have : r.find? (fun e => e.1 == k) = none := by
      rw [List.find?_eq_none]
      intro e he
      simp only [List.any_eq_true] at ha
      exact fun hb => ha ⟨e, he, hb⟩
    rw [this]
    simp

theorem dbGet_dbSet_ne {r : Registry} {k k' : String} (v : DBType) (h : k ≠ k') :
    dbGet (dbSet r k' v) k = dbGet r k := by
  unfold dbGet dbSet
  by_cases ha : r.any (fun e => e.1 == k')
  · rw [if_pos ha]
    clear ha
    induction r with
    | nil => simp
    | cons e rest ih =>
      simp only [List.map_cons]
      by_cases hk : e.1 = k'
      · rw [if_pos (by simpa using hk)]
        rw [List.find?_cons_of_neg _ (by simp [Ne.symm h])]
        rw [List.find?_cons_of_neg _ (by simp [hk, Ne.symm h])]
        exact ih
      · rw [if_neg (by simpa using hk)]
        by_cases hek : e.1 = k
        · rw [List.find?_cons_of_pos _ (by simpa using hek),
            List.find?_cons_of_pos _ (by simpa using hek)]
        · rw [List.find?_cons_of_neg _ (by simpa using hek),
            List.find?_cons_of_neg _ (by simpa using hek)]
          exact ih
  · rw [if_neg ha]
    rw [List.find?_append]
    cases hf : r.find? (fun e => e.1 == k) with
    | some e => simp
    | none =>
      have hkk : (k' == k) = false := by simp [Ne.symm h]
      simp [List.find?, hkk]

theorem addTypes_keys_nodup {r : Registry} {inputs : List (String × TypeJSON)}
    (hnd : (r.map Prod.fst).Nodup) :
    ((AddTypesFromUnreal r inputs).map Prod.fst).Nodup := by
  induction inputs generalizing r with
  | nil => exact hnd
  | cons kv rest ih =>
    exact ih (dbSet_keys_nodup hnd)

theorem addTypes_get_not_mem {r : Registry} {inputs : List (String × TypeJSON)}
    {k : String} (h : k ∉ inputs.map Prod.fst) :
    dbGet (AddTypesFromUnreal r inputs) k = dbGet r k := by
  induction inputs generalizing r with
  | nil => rfl
  | cons kv rest ih =>
    simp only [List.map_cons, List.mem_cons, not_or] at h
    show dbGet (AddTypesFromUnreal (dbSet r kv.1 (DBType.fromJSON kv.1 kv.2)) rest) k = _
    rw [ih h.2, dbGet_dbSet_ne _ h.1]

theorem addTypes_mem_get {r : Registry} {inputs : List (String × TypeJSON)}
    {k : String} (h : k ∈ inputs.map Prod.fst) :
    ∃ j, dbGet (AddTypesFromUnreal r inputs) k = some (DBType.fromJSON k j) := by
  induction inputs generalizing r with
  | nil => simp at h
  | cons kv rest ih =>
    by_cases hm : k ∈ rest.map Prod.fst
    · exact ih hm
    · have hk : k = kv.1 := by
        simp only [List.map_cons, List.mem_cons] at h
        exact h.resolve_right hm
      refine ⟨kv.2, ?_⟩
      show dbGet (AddTypesFromUnreal (dbSet r kv.1 (DBType.fromJSON kv.1 kv.2)) rest) k = _
      rw [addTypes_get_not_mem hm, hk, dbGet_dbSet_self]

/-- C10: a type built by `DBType.fromJSON` (as `AddTypesFromUnreal` does for
every entry of an engine reflection dump) never has `declaredModule` set, so
for every module id `m`, `removeModule(m)` retains every entry that came from
the dump: the entry is still present, unchanged, after the removal. -/
theorem unreal_types_survive_module_removal :
    (∀ (name : String) (input : TypeJSON),
      (DBType.fromJSON name input).declaredModule = none) ∧
    (∀ (r : Registry) (inputs : List (String × TypeJSON)) (m k : String),
      (r.map Prod.fst).Nodup → k ∈ inputs.map Prod.fst →
      ∃ v, dbGet (AddTypesFromUnreal r inputs) k = some v ∧
        v.declaredModule = none ∧
        dbGet (RemoveTypesInModule m (AddTypesFromUnreal r inputs)) k = some v) := by
  constructor
  · intro name input
    rfl
  · intro r inputs m k hnd hmem
    rcases addTypes_mem_get (r := r) hmem with ⟨j, hget⟩
    refine ⟨DBType.fromJSON k j, hget, rfl, ?_⟩
    unfold RemoveTypesInModule
    rw [dbGet_filter _ (addTypes_keys_nodup hnd) hget]
    rw [if_pos]
    show (!((DBType.fromJSON k j).declaredModule == some m)) = true
    rfl

/-- An empty engine-reflected type record. -/
def emptyTypeJSON : TypeJSON :=
  { properties := [], methods := [], subtypes := none, supertype := none
    inherits := none, doc := none, isStruct := none, isEnum := none }

theorem unreal_types_survive_module_removal_witness :
    (DBType.fromJSON "UObject" emptyTypeJSON).declaredModule = none ∧
    ∃ v, dbGet (AddTypesFromUnreal [] [("UObject", emptyTypeJSON)]) "UObject" = some v ∧
      v.declaredModule = none ∧
      dbGet (RemoveTypesInModule "m"
        (AddTypesFromUnreal [] [("UObject", emptyTypeJSON)])) "UObject" = some v :=
  ⟨unreal_types_survive_module_removal.1 "UObject" emptyTypeJSON,
   unreal_types_survive_module_removal.2 [] [("UObject", emptyTypeJSON)] "m" "UObject"
     (by decide) (by decide)⟩

/-! ### Combination-walk equations -/

theorem combineLoop_zero (r : Registry) (extend : List DBType) (ci : Nat) :
    combineLoop 0 r extend ci = none := rfl

theorem combineLoop_stop {fuel : Nat} {r : Registry} {extend : List DBType} {ci : Nat}
    (h : ¬ ci < extend.length) :
    combineLoop (fuel + 1) r extend ci = some (Except.ok (extend, r)) := by
  unfold combineLoop
  rw [dif_neg h]

theorem combineBody_plain {r : Registry} {extend : List DBType} {t : DBType}
    (h1 : t.supertype = none) (h2 : t.siblingTypes = none) :
    combineBody r extend t = Except.ok (extend, r) := by
  unfold combineBody
  rw [h1, h2]

theorem resolveExtend_hit {r : Registry} {extend : List DBType} {name : String}
    {d : DBType} (h : GetType r name = Except.ok (some d, r)) :
    resolveExtend r extend name =
      Except.ok ((if d ∈ extend then extend else extend ++ [d]), r) := by
  unfold resolveExtend
  rw [h]

theorem resolveSiblings_nil (r : Registry) (extend : List DBType) :
    resolveSiblings r extend [] = Except.ok (extend, r) := rfl

theorem resolveSiblings_cons (r : Registry) (extend : List DBType)
    (s : String) (rest : List String) :
    resolveSiblings r extend (s :: rest) =
      (match resolveExtend r extend s with
       | Except.error e => Except.error e
       | Except.ok (extend1, r1) => resolveSiblings r1 extend1 rest) := rfl

/-- The `bar` method declared by a named scenario type. -/
def mkBarMethod (ret : String) : DBMethod :=
  { name := "bar", returnType := ret, args := []
    argumentStr := none, documentation := none, declaredModule := none
    isProtected := false, isPrivate := false, isConstructor := false
    isEvent := false, isConst := false }

def typeS : DBType := { mkBareType "S" with methods := [mkBarMethod "S"] }

def typeX : DBType := { mkBareType "X" with methods := [mkBarMethod "X"] }

def typeY : DBType := { mkBareType "Y" with methods := [mkBarMethod "Y"] }

/-- A type with a supertype AND the sibling list `["X", "Y"]`. -/
def typeCsup : DBType :=
  { mkBareType "C" with supertype := some "S", siblingTypes := some ["X", "Y"] }

def regCXY : Registry :=
  [("C", typeCsup), ("S", typeS), ("X", typeX), ("Y", typeY)]

/-- C7 counterexample: the claim quantifies over every type whose sibling
list is `[X, Y]`, but a type that also has a supertype declaring `bar`
returns the supertype's declaration, not the first sibling's: the walk
pushes the supertype before the siblings. -/
theorem getMethod_supertype_beats_first_sibling :
    typeCsup.getMethod "bar" regCXY 6 =
      some (Except.ok (some (mkBarMethod "S"), regCXY)) ∧
    mkBarMethod "S" ≠ mkBarMethod "X" ∧
    (typeX.methods.find? (fun f => f.name == "bar") = some (mkBarMethod "X")) := by
  refine ⟨by decide, by decide, by decide⟩

/-- C7: (a) for a type with NO supertype whose sibling list is `[x, y]`, when
both siblings resolve in the registry to plain types (no further supertype or
siblings) that both declare `bar` and the type itself does not, `getMethod`
returns the first-listed sibling's declaration (the first `bar` found in
`x`'s resolution) and leaves the registry unchanged; (b) for every type that
does declare the method itself, its own (first) declaration is returned in
preference to any base's, for any registry and fuel. -/
theorem sibling_and_own_method_precedence :
    (∀ (r : Registry) (tC tX tY : DBType) (x y bar : String) (mX : DBMethod),
      tC.supertype = none →
      tC.siblingTypes = some [x, y] →
      GetType r x = Except.ok (some tX, r) →
      GetType r y = Except.ok (some tY, r) →
      tC.methods.find? (fun f => f.name == bar) = none →
      tX.methods.find? (fun f => f.name == bar) = some mX →
      (∃ mY, tY.methods.find? (fun f => f.name == bar) = some mY) →
      tX.supertype = none → tX.siblingTypes = none →
      tY.supertype = none → tY.siblingTypes = none →
      tC.getMethod bar r 4 = some (Except.ok (some mX, r))) ∧
    (∀ (t : DBType) (n : String) (r : Registry) (fuel : Nat) (m : DBMethod),
      t.methods.find? (fun f => f.name == n) = some m →
      t.getMethod n r fuel = some (Except.ok (some m, r))) := by
  constructor
  · intro r tC tX tY x y bar mX hCsup hCsib hX hY hCbar hXbar hYbar hXsup hXsib hYsup hYsib

    have hXne : tX ≠ tC := by
      intro he
      rw [he, hCbar] at hXbar
      exact Option.noConfusion hXbar
    have hYne : tY ≠ tC := by
      obtain ⟨mY, hmY⟩ := hYbar
      intro he
      rw [he, hCbar] at hmY
      exact Option.noConfusion hmY
    have hext : tC.hasExtendTypes = true := by
      unfold DBType.hasExtendTypes
      rw [hCsib]
      simp
    by_cases hYX : tY = tX
    · -- the second sibling resolves to the same (structurally equal) type
      subst hYX
      have h0 : combineBody r [tC] tC = Except.ok ([tC, tY], r) := by
        unfold combineBody
        simp only [hCsup, hCsib, resolveSiblings_cons, resolveSiblings_nil,
          resolveExtend_hit hX, resolveExtend_hit hY]
        simp [hXne]
      have hwalk : tC.getCombineTypesList r 4 = some (Except.ok ([tC, tY], r)) := by
        unfold DBType.getCombineTypesList
        have t1 : combineLoop 4 r [tC] 0 =
            (match combineBody r [tC] tC with
             | Except.error e => some (Except.error e)
             | Except.ok (e2, r2) => combineLoop 3 r2 e2 1) := rfl
        rw [t1]
        simp only [h0]
        have t2 : combineLoop 3 r [tC, tY] 1 =
            (match combineBody r [tC, tY] tY with
             | Except.error e => some (Except.error e)
             | Except.ok (e2, r2) => combineLoop 2 r2 e2 2) := rfl
        rw [t2]
        simp only [combineBody_plain hYsup hYsib]
        rfl
      unfold DBType.getMethod
      rw [hCbar, hext]
      simp only [Bool.not_true, Bool.false_eq_true, if_false]
      rw [hwalk]
      simp only [findMethodIn, hCbar, hXbar]
    · have h0 : combineBody r [tC] tC = Except.ok ([tC, tX, tY], r) := by
        unfold combineBody
        simp only [hCsup, hCsib, resolveSiblings_cons, resolveSiblings_nil,
          resolveExtend_hit hX, resolveExtend_hit hY]
        simp [hXne, hYne, hYX]
      have hwalk : tC.getCombineTypesList r 4 = some (Except.ok ([tC, tX, tY], r)) := by
        unfold DBType.getCombineTypesList
        have t1 : combineLoop 4 r [tC] 0 =
            (match combineBody r [tC] tC with
             | Except.error e => some (Except.error e)
             | Except.ok (e2, r2) => combineLoop 3 r2 e2 1) := rfl
        rw [t1]
        simp only [h0]
        have t2 : combineLoop 3 r [tC, tX, tY] 1 =
            (match combineBody r [tC, tX, tY] tX with
             | Except.error e => some (Except.error e)
             | Except.ok (e2, r2) => combineLoop 2 r2 e2 2) := rfl
        rw [t2]
        simp only [combineBody_plain hXsup hXsib]
        have t3 : combineLoop 2 r [tC, tX, tY] 2 =
            (match combineBody r [tC, tX, tY] tY with
             | Except.error e => some (Except.error e)
             | Except.ok (e2, r2) => combineLoop 1 r2 e2 3) := rfl
        rw [t3]
        simp only [combineBody_plain hYsup hYsib]
        rfl
      unfold DBType.getMethod
      rw [hCbar, hext]
      simp only [Bool.not_true, Bool.false_eq_true, if_false]
      rw [hwalk]
      simp only [findMethodIn, hCbar, hXbar]
  · intro t n r fuel m h
    unfold DBType.getMethod
    rw [h]

/-- A type with no supertype and the sibling list `["X", "Y"]`. -/
def typeCnosup : DBType :=
  { mkBareType "C2" with siblingTypes := some ["X", "Y"] }

def regXY : Registry := [("C2", typeCnosup), ("X", typeX), ("Y", typeY)]

theorem sibling_and_own_method_precedence_witness :
    typeCnosup.getMethod "bar" regXY 4 =
      some (Except.ok (some (mkBarMethod "X"), regXY)) ∧
    typeX.getMethod "bar" [] 0 = some (Except.ok (some (mkBarMethod "X"), [])) :=
  ⟨sibling_and_own_method_precedence.1 regXY typeCnosup typeX typeY "X" "Y" "bar"
      (mkBarMethod "X") (by decide) (by decide) (by decide) (by decide) (by decide)
      (by decide) ⟨mkBarMethod "Y", by decide⟩ (by decide) (by decide) (by decide)
      (by decide),
   sibling_and_own_method_precedence.2 typeX "bar" [] 0 (mkBarMethod "X") (by decide)⟩

/-! ### Termination of the combination walk

The flattening walk appends a resolved type only when `extend` does not
already contain it, and every type it can append lives in the registry,
whose growth during the walk is bounded: each instantiation stores its
result under the cleaned queried name, and all queried names are
supertype/sibling names copied verbatim from types already reachable.  The
following development makes that bound precise.
-/

/-- The inheritance-reference names of a type: its `supertype` (when any)
followed by its sibling names. -/
def fieldNames (t : DBType) : List String :=
  (match t.supertype with | some s => [s] | none => []) ++ t.siblingTypes.getD []

def regValues (r : Registry) : List DBType := r.map (fun e => e.2)

/-- Every name the walk starting from `t` over registry `r` can ever look
up: the reference names of `t` and of every registry value (instances copy
their reference names verbatim from a base, so this pool is closed under
instantiation). -/
def namePool (r : Registry) (t : DBType) : List String :=
  fieldNames t ++ (regValues r).bind fieldNames

/-- Fuel sufficient for `getCombineTypesList` on any registry (cycles
included): one iteration per element of the final list plus the closing
check, bounded by the start type plus all reachable registry entries. -/
def combineFuel (r : Registry) (t : DBType) : Nat :=
  r.length + (namePool r t).length + 2

theorem createTemplateInstance_refs {base inst : DBType} {as : List String}
    (h : base.createTemplateInstance as = Except.ok (some inst)) :
    inst.supertype = base.supertype ∧ inst.siblingTypes = base.siblingTypes := by
  unfold DBType.createTemplateInstance at h
  cases hsub : base.subTypes with
  | none => rw [hsub] at h; simp at h
  | some sub =>
    simp only [hsub] at h
    by_cases hlen : as.length ≠ sub.length
    · rw [if_pos hlen] at h; simp at h
    · rw [if_neg hlen] at h
      simp only [Except.ok.injEq, Option.some.injEq] at h
      rw [← h]
      exact ⟨rfl, rfl⟩

theorem dbGet_mem_values {r : Registry} {k : String} {v : DBType}
    (h : dbGet r k = some v) : v ∈ regValues r :=
  List.mem_map_of_mem (fun e => e.2) (dbGet_mem h)

/-- The effect of one `GetType` call on the registry: either it leaves the
registry alone (and any returned type is a current registry value), or it
returns a fresh instance and appends exactly one entry for it under the
cleaned queried name, with the instance's reference names copied from a
current registry value. -/
theorem getType_effect {r r' : Registry} {n : String} {o : Option DBType}
    (h : GetType r n = Except.ok (o, r')) :
    (r' = r ∧ ∀ d, o = some d → d ∈ regValues r) ∨
    (∃ inst b, o = some inst ∧ b ∈ regValues r ∧ fieldNames inst = fieldNames b ∧
      dbGet r (CleanTypeName n) = none ∧ r' = r ++ [(CleanTypeName n, inst)]) := by
  unfold GetType at h
  rw [show (2 : Nat) = 1 + 1 from rfl, getTypeAux_succ] at h
  unfold getTypeStep at h
  generalize htn : CleanTypeName n = tn at h ⊢
  cases hmiss : dbGet r tn with
  | some f =>
    simp only [hmiss] at h
    simp only [Except.ok.injEq, Prod.mk.injEq] at h
    left
    refine ⟨h.2.symm, ?_⟩
    intro d hd
    rw [← h.1] at hd
    cases hd
    exact dbGet_mem_values hmiss
  | none =>
    simp only [hmiss] at h
    split at h
    · split at h
      next basetype argstr hp =>
        cases hr : getTypeAux 1 r basetype with
        | error e => rw [hr] at h; simp at h
        | ok v =>
          cases v with
          | mk o1 r1 =>
            rcases getTypeAux_one_ok hr with ⟨hr1, ho⟩
            subst hr1
            cases o1 with
            | none =>
              rw [hr] at h
              simp only [Except.ok.injEq, Prod.mk.injEq] at h
              left
              refine ⟨h.2.symm, ?_⟩
              intro d hd
              rw [← h.1] at hd
              cases hd
            | some dbbasetype =>
              simp only [hr] at h
              cases hc : dbbasetype.createTemplateInstance
                  ((jsSplitComma argstr).map jsTrim) with
              | error e => simp only [hc] at h; exact absurd h (by simp)
              | ok oi =>
                cases oi with
                | none => simp only [hc] at h; exact absurd h (by simp)
                | some inst0 =>
                  simp only [hc, Except.ok.injEq, Prod.mk.injEq] at h
                  obtain ⟨h1, h2⟩ := h
                  right
                  refine ⟨{ inst0 with typename := tn }, dbbasetype, ?_, ?_, ?_, rfl, ?_⟩
                  · exact h1.symm
                  · exact dbGet_mem_values ho.symm
                  · rcases createTemplateInstance_refs hc with ⟨hs, hsib⟩
                    unfold fieldNames
                    rw [show ({ inst0 with typename := tn } : DBType).supertype =
                      inst0.supertype from rfl, hs]
                    rw [show ({ inst0 with typename := tn } : DBType).siblingTypes =
                      inst0.siblingTypes from rfl, hsib]
                  · rw [← h2, dbSet_of_dbGet_none _ hmiss]
      next =>
        simp only [Except.ok.injEq, Prod.mk.injEq] at h
        left
        refine ⟨h.2.symm, ?_⟩
        intro d hd
        rw [← h.1] at hd
        cases hd
    · simp only [Except.ok.injEq, Prod.mk.injEq] at h
      left
      refine ⟨h.2.symm, ?_⟩
      intro d hd
      rw [← h.1] at hd
      cases hd

/-- Registry-shape invariant maintained by the walk: the registry is the
starting registry plus distinct cache entries keyed by cleaned pool names,
and every registry value's reference names stay inside the pool. -/
def PoolInv (r0 : Registry) (t0 : DBType) (r : Registry) : Prop :=
  (∃ d, r = r0 ++ d ∧ (d.map Prod.fst).Nodup ∧
    ∀ k ∈ d.map Prod.fst, k ∈ (namePool r0 t0).map CleanTypeName) ∧
  (∀ v ∈ regValues r, fieldNames v ⊆ namePool r0 t0)

/-- `extend`-shape invariant: no duplicates, and every element is the start
type or a current registry value. -/
def ExtInv (t0 : DBType) (r : Registry) (extend : List DBType) : Prop :=
  extend.Nodup ∧ ∀ e ∈ extend, e = t0 ∨ e ∈ regValues r

theorem poolInv_length {r0 : Registry} {t0 : DBType} {r : Registry}
    (h : PoolInv r0 t0 r) : r.length ≤ r0.length + (namePool r0 t0).length := by
  obtain ⟨⟨d, rfl, hnd, hsub⟩, -⟩ := h
  rw [List.length_append]
  have h1 : (d.map Prod.fst).toFinset.card = (d.map Prod.fst).length :=
    List.toFinset_card_of_nodup hnd
  have h2 : (d.map Prod.fst).toFinset ⊆
      ((namePool r0 t0).map CleanTypeName).toFinset := by
    intro x hx
    rw [List.mem_toFinset] at hx ⊢
    exact hsub x hx
  have h3 := Finset.card_le_card h2
  have h4 := List.toFinset_card_le ((namePool r0 t0).map CleanTypeName)
  have h5 : d.length = (d.map Prod.fst).length := (List.length_map d Prod.fst).symm
  have h6 : ((namePool r0 t0).map CleanTypeName).length = (namePool r0 t0).length :=
    List.length_map _ _
  omega

theorem extInv_length {r0 : Registry} {t0 : DBType} {r : Registry}
    {extend : List DBType}
    (hp : PoolInv r0 t0 r) (he : ExtInv t0 r extend) :
    extend.length ≤ 1 + r0.length + (namePool r0 t0).length := by
  have h1 : extend.toFinset.card = extend.length := List.toFinset_card_of_nodup he.1
  have h2 : extend.toFinset ⊆ (t0 :: regValues r).toFinset := by
    intro x hx
    rw [List.mem_toFinset] at hx ⊢
    rcases he.2 x hx with h | h
    · exact h ▸ List.mem_cons_self _ _
    · exact List.mem_cons_of_mem _ h
  have h3 := Finset.card_le_card h2
  have h4 := List.toFinset_card_le (t0 :: regValues r)
  have h5 : (t0 :: regValues r).length = 1 + r.length := by
    simp [regValues, Nat.add_comm]
  have h6 := poolInv_length hp
  omega

theorem regValues_append (r1 r2 : Registry) :
    regValues (r1 ++ r2) = regValues r1 ++ regValues r2 := by
  unfold regValues
  rw [List.map_append]

theorem resolveExtend_effect {r0 : Registry} {t0 : DBType} {r r2 : Registry}
    {extend extend2 : List DBType} {name : String}
    (hp : PoolInv r0 t0 r) (he : ExtInv t0 r extend)
    (hn : name ∈ namePool r0 t0)
    (h : resolveExtend r extend name = Except.ok (extend2, r2)) :
    PoolInv r0 t0 r2 ∧ ExtInv t0 r2 extend2 ∧ extend.length ≤ extend2.length := by
  unfold resolveExtend at h
  cases hg : GetType r name with
  | error e => rw [hg] at h; simp at h
  | ok v =>
    cases v with
    | mk o r1 =>
      rcases getType_effect hg with ⟨rfl, hval⟩ | ⟨inst, b, rfl, hbmem, hfield, hmiss, rfl⟩
      · -- registry untouched
        cases o with
        | none =>
          simp only [hg] at h
          simp only [Except.ok.injEq, Prod.mk.injEq] at h
          obtain ⟨h1, h2⟩ := h
          subst h1; subst h2
          exact ⟨hp, he, Nat.le_refl _⟩
        | some d =>
          simp only [hg] at h
          simp only [Except.ok.injEq, Prod.mk.injEq] at h
          obtain ⟨h1, h2⟩ := h
          subst h1; subst h2
          by_cases hmem : d ∈ extend
          · rw [if_pos hmem]
            exact ⟨hp, he, Nat.le_refl _⟩
          · rw [if_neg hmem]
            refine ⟨hp, ⟨?_, ?_⟩, ?_⟩
            · exact List.Nodup.append he.1 (List.nodup_singleton d)
                (by simp [List.disjoint_singleton]; exact fun hd => hmem hd)
            · intro e hemem
              rcases List.mem_append.mp hemem with hh | hh
              · exact he.2 e hh
              · right
                rw [List.mem_singleton] at hh
                exact hh ▸ hval d rfl
            · simp
      · -- one fresh cache entry appended
        simp only [hg] at h
        simp only [Except.ok.injEq, Prod.mk.injEq] at h
        obtain ⟨h1, h2⟩ := h
        subst h1; subst h2
        have hpool2 : PoolInv r0 t0 (r ++ [(CleanTypeName name, inst)]) := by
          obtain ⟨⟨d0, rfl, hnd, hsub⟩, hvals⟩ := hp
          constructor
          · refine ⟨d0 ++ [(CleanTypeName name, inst)], by rw [List.append_assoc], ?_, ?_⟩
            · rw [List.map_append]
              simp only [List.map_cons, List.map_nil]
              rw [List.nodup_append]
              refine ⟨hnd, List.nodup_singleton _, ?_⟩
              intro a ha hb
              rw [List.mem_singleton] at hb
              subst hb
              have := dbGet_eq_none_iff.mp hmiss
              rcases List.mem_map.mp ha with ⟨e, hemem, hek⟩
              exact this e (List.mem_append_right _ hemem) hek
            · intro k hk
              rw [List.map_append] at hk
              rcases List.mem_append.mp hk with hh | hh
              · exact hsub k hh
              · simp only [List.map_cons, List.map_nil, List.mem_singleton] at hh
                subst hh
                exact List.mem_map_of_mem CleanTypeName hn
          · intro v hv
            rw [regValues_append] at hv
            rcases List.mem_append.mp hv with hh | hh
            · exact hvals v hh
            · simp only [regValues, List.map_cons, List.map_nil,
                List.mem_singleton] at hh
              subst hh
              rw [hfield]
              exact hvals b hbmem
        by_cases hmem : inst ∈ extend
        · rw [if_pos hmem]
          refine ⟨hpool2, ⟨he.1, ?_⟩, Nat.le_refl _⟩
          intro e hemem
          rcases he.2 e hemem with hh | hh
          · exact Or.inl hh
          · right
            rw [regValues_append]
            exact List.mem_append_left _ hh
        · rw [if_neg hmem]
          refine ⟨hpool2, ⟨?_, ?_⟩, by simp⟩
          · exact List.Nodup.append he.1 (List.nodup_singleton inst)
              (by simp [List.disjoint_singleton]; exact fun hd => hmem hd)
          · intro e hemem
            rcases List.mem_append.mp hemem with hh | hh
            · rcases he.2 e hh with h3 | h3
              · exact Or.inl h3
              · right
                rw [regValues_append]
                exact List.mem_append_left _ h3
            · right
              rw [List.mem_singleton] at hh
              subst hh
              rw [regValues_append]
              refine List.mem_append_right _ ?_
              simp [regValues]

theorem resolveSiblings_effect {r0 : Registry} {t0 : DBType} :
    ∀ (sibs : List String) {r r2 : Registry} {extend extend2 : List DBType},
    PoolInv r0 t0 r → ExtInv t0 r extend →
    (∀ s ∈ sibs, s ∈ namePool r0 t0) →
    resolveSiblings r extend sibs = Except.ok (extend2, r2) →
    PoolInv r0 t0 r2 ∧ ExtInv t0 r2 extend2 ∧ extend.length ≤ extend2.length := by
  intro sibs
  induction sibs with
  | nil =>
    intro r r2 extend extend2 hp he _ h
    rw [resolveSiblings_nil] at h
    simp only [Except.ok.injEq, Prod.mk.injEq] at h
    obtain ⟨h1, h2⟩ := h
    subst h1; subst h2
    exact ⟨hp, he, Nat.le_refl _⟩
  | cons s rest ih =>
    intro r r2 extend extend2 hp he hs h
    rw [resolveSiblings_cons] at h
    cases hre : resolveExtend r extend s with
    | error e => rw [hre] at h; simp at h
    | ok p =>
      cases p with
      | mk extend1 r1 =>
        simp only [hre] at h
        rcases resolveExtend_effect hp he (hs s (List.mem_cons_self _ _)) hre with
          ⟨hp1, he1, hlen1⟩
        rcases ih hp1 he1 (fun a ha => hs a (List.mem_cons_of_mem _ ha)) h with
          ⟨hp2, he2, hlen2⟩
        exact ⟨hp2, he2, Nat.le_trans hlen1 hlen2⟩

theorem fieldNames_subset_pool {r0 : Registry} {t0 : DBType} {r : Registry}
    {checkType : DBType}
    (hp : PoolInv r0 t0 r) (hct : checkType = t0 ∨ checkType ∈ regValues r) :
    fieldNames checkType ⊆ namePool r0 t0 := by
  rcases hct with rfl | h
  · intro a ha
    unfold namePool
    -- the pool of the *start* registry: t0's own names are its first block
    exact List.mem_append_left _ ha
  · exact hp.2 checkType h

theorem combineBody_effect {r0 : Registry} {t0 : DBType} {r r2 : Registry}
    {extend extend2 : List DBType} {checkType : DBType}
    (hp : PoolInv r0 t0 r) (he : ExtInv t0 r extend)
    (hct : checkType = t0 ∨ checkType ∈ regValues r)
    (h : combineBody r extend checkType = Except.ok (extend2, r2)) :
    PoolInv r0 t0 r2 ∧ ExtInv t0 r2 extend2 ∧ extend.length ≤ extend2.length := by
  have hflds : fieldNames checkType ⊆ namePool r0 t0 := fieldNames_subset_pool hp hct
  unfold combineBody at h
  have hsupPart :
      ∀ {extend1 : List DBType} {r1 : Registry},
      (match checkType.supertype with
       | some sup =>
         if jsIsEmpty sup then Except.ok (extend, r)
         else resolveExtend r extend sup
       | none => Except.ok (extend, r)) = Except.ok (extend1, r1) →
      PoolInv r0 t0 r1 ∧ ExtInv t0 r1 extend1 ∧ extend.length ≤ extend1.length := by
    intro extend1 r1 hh
    cases hsup : checkType.supertype with
    | none =>
      simp only [hsup] at hh
      simp only [Except.ok.injEq, Prod.mk.injEq] at hh
      obtain ⟨h1, h2⟩ := hh
      subst h1; subst h2
      exact ⟨hp, he, Nat.le_refl _⟩
    | some sup =>
      simp only [hsup] at hh
      by_cases hemp : jsIsEmpty sup
      · rw [if_pos hemp] at hh
        simp only [Except.ok.injEq, Prod.mk.injEq] at hh
        obtain ⟨h1, h2⟩ := hh
        subst h1; subst h2
        exact ⟨hp, he, Nat.le_refl _⟩
      · rw [if_neg hemp] at hh
        refine resolveExtend_effect hp he ?_ hh
        apply hflds
        unfold fieldNames
        rw [hsup]
        exact List.mem_append_left _ (List.mem_singleton.mpr rfl)
  cases hinner : (match checkType.supertype with
       | some sup =>
         if jsIsEmpty sup then Except.ok (extend, r)
         else resolveExtend r extend sup
       | none => Except.ok (extend, r)) with
  | error e => rw [hinner] at h; simp at h
  | ok p =>
    cases p with
    | mk extend1 r1 =>
      rcases hsupPart hinner with ⟨hp1, he1, hlen1⟩
      simp only [hinner] at h
      cases hsib : checkType.siblingTypes with
      | none =>
        simp only [hsib] at h
        simp only [Except.ok.injEq, Prod.mk.injEq] at h
        obtain ⟨h1, h2⟩ := h
        subst h1; subst h2
        exact ⟨hp1, he1, hlen1⟩
      | some sibs =>
        simp only [hsib] at h
        have hsubs : ∀ s ∈ sibs, s ∈ namePool r0 t0 := by
          intro s hsmem
          apply hflds
          unfold fieldNames
          rw [hsib]
          exact List.mem_append_right _ (by simpa using hsmem)
        rcases resolveSiblings_effect sibs hp1 he1 hsubs h with ⟨hp2, he2, hlen2⟩
        exact ⟨hp2, he2, Nat.le_trans hlen1 hlen2⟩

theorem combineLoop_isSome (r0 : Registry) (t0 : DBType) :
    ∀ (fuel : Nat) (r : Registry) (extend : List DBType) (ci : Nat),
    PoolInv r0 t0 r → ExtInv t0 r extend → ci ≤ extend.length →
    (2 + r0.length + (namePool r0 t0).length) - ci ≤ fuel →
    (combineLoop fuel r extend ci).isSome = true := by
  intro fuel
  induction fuel with
  | zero =>
    intro r extend ci hp he hci hfuel
    exfalso
    have hlen := extInv_length hp he
    omega
  | succ fuel ih =>
    intro r extend ci hp he hci hfuel
    by_cases hlt : ci < extend.length
    · unfold combineLoop
      rw [dif_pos hlt]
      have hct : extend[ci] = t0 ∨ extend[ci] ∈ regValues r :=
        he.2 _ (extend.get_mem ci hlt)
      cases hbody : combineBody r extend (extend[ci]) with
      | error e => simp
      | ok p =>
        cases p with
        | mk extend2 r2 =>
          simp only [hbody]
          rcases combineBody_effect hp he hct hbody with ⟨hp2, he2, hlen2⟩
          exact ih r2 extend2 (ci + 1) hp2 he2 (by omega) (by omega)
    · rw [combineLoop_stop hlt]
      rfl

/-- C5 (amended): the flattening walk DOES have a cycle guard — the
membership check before each append — so for every registry state and start
type, including reference cycles among supertype/sibling names, the
combination-list computation completes within fuel proportional to the
registry size plus the number of reachable reference names: it does not grow
without bound. -/
theorem combine_walk_always_terminates (r : Registry) (t : DBType) :
    (t.getCombineTypesList r (combineFuel r t)).isSome = true := by
  unfold DBType.getCombineTypesList combineFuel
  apply combineLoop_isSome r t (r.length + (namePool r t).length + 2) r [t] 0
  · constructor
    · exact ⟨[], (List.append_nil r).symm, by simp, by simp⟩
    · intro v hv a ha
      unfold namePool
      refine List.mem_append_right _ ?_
      exact List.mem_bind.mpr ⟨v, hv, ha⟩
  · exact ⟨List.nodup_singleton t, fun e hemem => Or.inl (List.mem_singleton.mp hemem)⟩
  · simp
  · omega

def typeA : DBType := { mkBareType "A" with supertype := some "B" }

def typeB : DBType := { mkBareType "B" with supertype := some "A" }

/-- A registry with a reference cycle: `A`'s supertype is `B` and `B`'s
supertype is `A`. -/
def regAB : Registry := [("A", typeA), ("B", typeB)]

/-- C5 counterexample: on the paradigm cyclic registry the walk terminates
(the membership check refuses to re-append `A`), returning each type once
and leaving the registry unchanged — it does not grow without bound. -/
theorem combine_walk_terminates_on_cycle :
    typeA.getCombineTypesList regAB 5 = some (Except.ok ([typeA, typeB], regAB)) ∧
    typeA.getCombineTypesList regAB (combineFuel regAB typeA) =
      some (Except.ok ([typeA, typeB], regAB)) := by
  refine ⟨by decide, by decide⟩
